import Mathlib

/-!
Shallow embedding of the appointment reconciliation pipeline of
`UpdateFinalSF.py` and `Improoved_Update_FinalSF.py`.

Modelling conventions, fixed once for the whole development:

* Nullable SQL string columns are `Option String`; `none` is SQL `NULL`.
  SQL `CONCAT` turns `NULL` into the empty string (`sqlConcatOpt`), the
  `WHERE appointment_ext_id <> 'None'` predicate is three-valued (rows with
  `NULL` external id are dropped because the comparison is UNKNOWN), and the
  equality used in the `MERGE ... ON` clause is three-valued as well
  (`sqlEqOpt`: a comparison involving `NULL` never matches).
* `file_created_on` is a non-null file-metadata datetime; datetimes are
  totally ordered and are modelled as `Nat`.
* `HASHBYTES('SHA2_256', x)` is a deterministic function of the string `x`;
  the digest is modelled by its input string `x` (`Hash_DW_input`): equal
  inputs give equal digests, and the counterexamples below exhibit equal
  inputs, so they are sound for the real hash as well.
* Of the ~40 columns carried by the SELECT / staging table / MERGE, the
  embedding keeps the columns the claims talk about: the two key components,
  the six fingerprint fields, representative free-text business fields,
  provenance (`FileImported`, `ETL_SOURCE`), the freshness timestamp
  `File_Created_On` and the fingerprint `Hash_DW`.  All omitted columns
  (calendar owner attributes, derived class codes, durations, ...) are
  selected, replaced, inserted and updated by exactly the same uniform code
  paths as `appointment_location`, so they are represented by it.
-/

namespace OpairDE

/-- One row of the source table `[dbo].[appointments_stg]`, restricted to the
columns the reconciliation logic reads.  All string columns are nullable. -/
structure SrcRow where
  appointment_ext_id : Option String
  participant_integration_id : Option String
  appointment_type : Option String
  scheduled : Option String
  appointment_start_date : Option String
  appointment_end_date : Option String
  appointment_location : Option String
  appointment_description : Option String
  appointment_comment : Option String
  file_name : Option String
  file_created_on : Nat
  deriving DecidableEq, Repr

/-- SQL `CONCAT` semantics for one nullable argument: `NULL` contributes the
empty string. -/
def sqlConcatOpt (x : Option String) : String := x.getD ""

/-- The `WHERE appointment_ext_id <> 'None'` filter of both pipeline variants,
with SQL three-valued comparison semantics: a `NULL` external id makes the
comparison UNKNOWN, so the row is dropped as well. -/
def extIdValid : Option String → Bool
  | none => false
  | some s => decide (s ≠ "None")

/-- The partition key of the `ROW_NUMBER` window and the join key of the
`MERGE`: the pair `(appointment_ext_id, participant_integration_id)`.
SQL `PARTITION BY` groups `NULL`s together, so plain `Option` equality is the
partitioning equivalence. -/
def entityKey (r : SrcRow) : Option String × Option String :=
  (r.appointment_ext_id, r.participant_integration_id)

/-- Digest input of the change-detection fingerprint
`HASHBYTES('SHA2_256', CONCAT(appointment_ext_id, participant_integration_id,
appointment_type, scheduled, appointment_start_date, appointment_end_date))`:
the six fields are concatenated with no separator, `NULL` contributing the
empty string. -/
def Hash_DW_input (r : SrcRow) : String :=
  sqlConcatOpt r.appointment_ext_id ++ sqlConcatOpt r.participant_integration_id ++
    sqlConcatOpt r.appointment_type ++ sqlConcatOpt r.scheduled ++
    sqlConcatOpt r.appointment_start_date ++ sqlConcatOpt r.appointment_end_date

/-- The tuple of fingerprint-relevant fields, in the order they are
concatenated into the digest input. -/
def hashFields (r : SrcRow) :
    Option String × Option String × Option String × Option String × Option String ×
      Option String :=
  (r.appointment_ext_id, r.participant_integration_id, r.appointment_type,
    r.scheduled, r.appointment_start_date, r.appointment_end_date)

/-- Rows surviving the `WHERE appointment_ext_id <> 'None'` filter; the
`LastAppointment` CTE computes over exactly these rows. -/
def validRows (batch : List SrcRow) : List SrcRow :=
  batch.filter (fun r => extIdValid r.appointment_ext_id)

/-- Distinct partition keys occurring among a list of (already filtered)
rows. -/
def srcKeysV (valid : List SrcRow) : List (Option String × Option String) :=
  (valid.map entityKey).dedup

/-- Distinct valid entity keys of a raw batch. -/
def srcKeys (batch : List SrcRow) : List (Option String × Option String) :=
  srcKeysV (validRows batch)

/-- The `PARTITION BY appointment_ext_id, participant_integration_id` window
partition for key `k`, over already filtered rows. -/
def partitionV (valid : List SrcRow) (k : Option String × Option String) :
    List SrcRow :=
  valid.filter (fun r => decide (entityKey r = k))

/-- Window partition for key `k` of a raw batch. -/
def partitionRows (batch : List SrcRow) (k : Option String × Option String) :
    List SrcRow :=
  partitionV (validRows batch) k

/-- One step of scanning a partition for its row numbered 1 under
`ORDER BY file_created_on DESC`: keep the row seen so far unless a strictly
fresher one arrives.  Ties keep the earlier row, which realises one of the
orders the SQL engine may choose among rows with equal `file_created_on`. -/
def pickStep : Option SrcRow → SrcRow → Option SrcRow
  | none, r => some r
  | some b, r => if r.file_created_on > b.file_created_on then some r else some b

/-- The row numbered 1 by
`ROW_NUMBER() OVER (PARTITION BY ... ORDER BY file_created_on DESC)` inside
one partition: a row with maximal `file_created_on` (none if the partition is
empty). -/
def pickLatest (l : List SrcRow) : Option SrcRow :=
  l.foldl pickStep none

/-- The rows kept by `WHERE row_num = 1`, over already filtered rows: one
latest row per distinct partition key. -/
def selectLatestV (valid : List SrcRow) : List SrcRow :=
  (srcKeysV valid).filterMap (fun k => pickLatest (partitionV valid k))

/-- The full `LastAppointment` selection of both pipeline variants: filter the
sentinel external ids, partition by entity key, keep the row numbered 1 of
each partition. -/
def selectLatest (batch : List SrcRow) : List SrcRow :=
  selectLatestV (validRows batch)

/-- Being an admissible `row_num = 1` row of partition `k`: the SQL window
orders the partition only by `file_created_on DESC`, so any member of the
partition whose timestamp is maximal may be numbered 1 — the relative order of
rows with equal `file_created_on` is left to the engine. -/
def IsRowOne (batch : List SrcRow) (k : Option String × Option String)
    (r : SrcRow) : Prop :=
  r ∈ partitionRows batch k ∧
    ∀ x ∈ partitionRows batch k, x.file_created_on ≤ r.file_created_on

/-- One row of the dataframe loaded into `staging_appointments` (and one row
of the final table `starfish_appointments`, whose mapped columns coincide). -/
structure SelRow where
  INTEGRATION_ID : Option String
  appointment_ext_id : Option String
  participant_integration_id : Option String
  appointment_type : Option String
  scheduled : Option String
  appointment_start_date : Option String
  appointment_end_date : Option String
  appointment_location : Option String
  appointment_description : Option String
  appointment_comment : Option String
  FileImported : Option String
  File_Created_On : Nat
  ETL_SOURCE : Option String
  Hash_DW : String
  deriving DecidableEq, Repr

/-- The computed columns of the `LastAppointment` SELECT list:
`CONCAT(appointment_ext_id, '_', participant_integration_id)` as
`INTEGRATION_ID`, `file_name AS FileImported`,
`file_created_on AS File_Created_On`, the constant `ETL_SOURCE`, and the
fingerprint. -/
def toSelRow (r : SrcRow) : SelRow :=
  { INTEGRATION_ID := some
      (sqlConcatOpt r.appointment_ext_id ++ "_" ++
        sqlConcatOpt r.participant_integration_id)
    appointment_ext_id := r.appointment_ext_id
    participant_integration_id := r.participant_integration_id
    appointment_type := r.appointment_type
    scheduled := r.scheduled
    appointment_start_date := r.appointment_start_date
    appointment_end_date := r.appointment_end_date
    appointment_location := r.appointment_location
    appointment_description := r.appointment_description
    appointment_comment := r.appointment_comment
    FileImported := r.file_name
    File_Created_On := r.file_created_on
    ETL_SOURCE := some "SF_Appointments"
    Hash_DW := Hash_DW_input r }

/-- The cell-level effect of `df.replace("None", np.nan)`: a cell holding
exactly the string `'None'` becomes `NULL` (NaN, written as SQL `NULL` by
`to_sql`); every other cell is unchanged. -/
def replaceNone (x : Option String) : Option String :=
  if x = some "None" then none else x

/-- The row-level effect of `df.replace("None", np.nan)` on the selected
dataframe: applied to every string column.  `File_Created_On` is a datetime
column and `Hash_DW` holds digest bytes, so neither can hold the string
`'None'`. -/
def replaceNoneRow (r : SelRow) : SelRow :=
  { INTEGRATION_ID := replaceNone r.INTEGRATION_ID
    appointment_ext_id := replaceNone r.appointment_ext_id
    participant_integration_id := replaceNone r.participant_integration_id
    appointment_type := replaceNone r.appointment_type
    scheduled := replaceNone r.scheduled
    appointment_start_date := replaceNone r.appointment_start_date
    appointment_end_date := replaceNone r.appointment_end_date
    appointment_location := replaceNone r.appointment_location
    appointment_description := replaceNone r.appointment_description
    appointment_comment := replaceNone r.appointment_comment
    FileImported := replaceNone r.FileImported
    File_Created_On := r.File_Created_On
    ETL_SOURCE := replaceNone r.ETL_SOURCE
    Hash_DW := r.Hash_DW }

/-- The content of the dataframe that `UpdateFinalSF.py` writes to the
staging table: select the latest row per valid entity key, compute the
derived columns, then replace `'None'` cells by `NULL`. -/
def stageBatch (batch : List SrcRow) : List SelRow :=
  (selectLatest batch).map (fun r => replaceNoneRow (toSelRow r))

/-- Table content after `df.to_sql(..., if_exists='replace')`
(`UpdateFinalSF.py`): the prior contents are dropped and the table holds
exactly the new batch. -/
def toSqlReplace {α : Type} (old new : List α) : List α := new

/-- Table content after `df.to_sql(..., if_exists='append')`
(`Improoved_Update_FinalSF.py`): the new batch is appended after the prior
contents. -/
def toSqlAppend {α : Type} (old new : List α) : List α := old ++ new

/-- Join key of the `MERGE ... ON` clause, as stored values. -/
def keyS (r : SelRow) : Option String × Option String :=
  (r.appointment_ext_id, r.participant_integration_id)

/-- SQL three-valued equality on nullable columns, as used by the
`MERGE ... ON` clause: a comparison involving `NULL` is UNKNOWN and therefore
does not match. -/
def sqlEqOpt (a b : Option String) : Bool :=
  match a, b with
  | some x, some y => decide (x = y)
  | _, _ => false

/-- The `ON target.appointment_ext_id = source.appointment_ext_id AND
target.participant_integration_id = source.participant_integration_id`
condition of the MERGE. -/
def mergeMatch (t s : SelRow) : Bool :=
  sqlEqOpt t.appointment_ext_id s.appointment_ext_id &&
    sqlEqOpt t.participant_integration_id s.participant_integration_id

/-- The `WHEN MATCHED ... THEN UPDATE SET` assignment list: every mapped
column of the target row is overwritten from the source row (including
`INTEGRATION_ID`, the fingerprint `Hash_DW` and the freshness timestamp
`File_Created_On`). -/
def applyUpdate (t s : SelRow) : SelRow :=
  { t with
    INTEGRATION_ID := s.INTEGRATION_ID
    appointment_ext_id := s.appointment_ext_id
    participant_integration_id := s.participant_integration_id
    appointment_type := s.appointment_type
    scheduled := s.scheduled
    appointment_start_date := s.appointment_start_date
    appointment_end_date := s.appointment_end_date
    appointment_location := s.appointment_location
    appointment_description := s.appointment_description
    appointment_comment := s.appointment_comment
    FileImported := s.FileImported
    File_Created_On := s.File_Created_On
    ETL_SOURCE := s.ETL_SOURCE
    Hash_DW := s.Hash_DW }

/-- Fate of one existing target row under the MERGE: if some source row
matches it (SQL Server requires this row to be unique, see `mergeRun`) and
`source.File_Created_On > target.File_Created_On`, the row is overwritten;
a matched row that is not strictly older, and an unmatched row, are left
untouched (the MERGE has no `WHEN NOT MATCHED BY SOURCE` clause). -/
def mergeRowAction (staged : List SelRow) (t : SelRow) : SelRow :=
  match staged.find? (fun s => mergeMatch t s) with
  | some s => if s.File_Created_On > t.File_Created_On then applyUpdate t s else t
  | none => t

/-- The `WHEN NOT MATCHED THEN INSERT` rows: source rows matching no target
row are inserted (all mapped columns, fingerprint and timestamp included). -/
def mergeInserts (target staged : List SelRow) : List SelRow :=
  staged.filter (fun s => !(target.any (fun t => mergeMatch t s)))

/-- The target table after one execution of `merge_query`: each existing row
updated or kept, followed by the inserted rows.  SQL Server aborts a MERGE in
which one target row is matched by two distinct source rows; `find?` takes
the first match, which agrees with SQL on every batch that MERGE accepts. -/
def mergeRun (target staged : List SelRow) : List SelRow :=
  target.map (mergeRowAction staged) ++ mergeInserts target staged

/-- Rows of a table carrying the entity key `k`. -/
def rowsWithKey (k : Option String × Option String) (l : List SelRow) :
    List SelRow :=
  l.filter (fun r => decide (keyS r = k))

/-- SQL `LEFT(s, n)` on a text value, the value being modelled as its
character list: the first `n` characters. -/
def sqlLeft (s : List Char) (n : Nat) : List Char := s.take n

/-- The `truncate_column` helper of `Improoved_Update_FinalSF.py` applied to a
string cell: clip to `max_length` characters when longer.  The boolean
records whether the `logging.warning` call inside the truncation branch
fired. -/
def truncate_column (value : List Char) (max_length : Nat) : List Char × Bool :=
  if value.length > max_length then (value.take max_length, true) else (value, false)

/-- What happens to the `appointment_description` / `appointment_comment`
cell of one staged record in `Improoved_Update_FinalSF.py`: the SELECT
already applies `LEFT(..., 2000)`, and the dataframe then passes the cell
through `truncate_column(x, 2000)`. -/
def improovedTextPipeline (raw : List Char) : List Char × Bool :=
  truncate_column (sqlLeft raw 2000) 2000

/-! ### Facts about the latest-wins selection -/

lemma pickLatest_go (l : List SrcRow) : ∀ b : SrcRow,
    ∃ r, List.foldl pickStep (some b) l = some r ∧ (r ∈ l ∨ r = b) ∧
      b.file_created_on ≤ r.file_created_on ∧
      ∀ x ∈ l, x.file_created_on ≤ r.file_created_on := by
  induction l with
  | nil => exact fun b => ⟨b, rfl, Or.inr rfl, Nat.le_refl _, by simp⟩
  | cons x xs ih =>
    intro b
    rw [List.foldl_cons]
    by_cases h : x.file_created_on > b.file_created_on
    · rw [show pickStep (some b) x = some x by simp [pickStep, h]]
      obtain ⟨r, hr, hmem, hble, hall⟩ := ih x
      refine ⟨r, hr, ?_, Nat.le_trans (Nat.le_of_lt h) hble, ?_⟩
      · rcases hmem with h1 | h1
        · exact Or.inl (List.mem_cons_of_mem _ h1)
        · exact Or.inl (h1 ▸ List.mem_cons_self _ _)
      · intro y hy
        rcases List.mem_cons.mp hy with rfl | hy2
        · exact hble
        · exact hall y hy2
    · rw [show pickStep (some b) x = some b by simp [pickStep, h]]
      obtain ⟨r, hr, hmem, hble, hall⟩ := ih b
      refine ⟨r, hr, ?_, hble, ?_⟩
      · rcases hmem with h1 | h1
        · exact Or.inl (List.mem_cons_of_mem _ h1)
        · exact Or.inr h1
      · intro y hy
        rcases List.mem_cons.mp hy with rfl | hy2
        · exact Nat.le_trans (Nat.le_of_not_lt h) hble
        · exact hall y hy2

lemma pickLatest_spec {l : List SrcRow} {r : SrcRow} (h : pickLatest l = some r) :
    r ∈ l ∧ ∀ x ∈ l, x.file_created_on ≤ r.file_created_on := by
  cases l with
  | nil => simp [pickLatest] at h
  | cons x xs =>
    rw [pickLatest, List.foldl_cons,
      show pickStep none x = some x from rfl] at h
    obtain ⟨r', hr', hmem, hble, hall⟩ := pickLatest_go xs x
    rw [hr'] at h
    injection h with h
    subst h
    constructor
    · rcases hmem with h1 | h1
      · exact List.mem_cons_of_mem _ h1
      · exact h1 ▸ List.mem_cons_self _ _
    · intro y hy
      rcases List.mem_cons.mp hy with rfl | hy2
      · exact hble
      · exact hall y hy2

lemma pickLatest_isSome {l : List SrcRow} (h : l ≠ []) :
    ∃ r, pickLatest l = some r := by
  cases l with
  | nil => exact absurd rfl h
  | cons x xs =>
    obtain ⟨r, hr, _, _, _⟩ := pickLatest_go xs x
    exact ⟨r, by rw [pickLatest, List.foldl_cons, show pickStep none x = some x from rfl, hr]⟩

lemma mem_partitionV {valid : List SrcRow} {k : Option String × Option String}
    {r : SrcRow} : r ∈ partitionV valid k ↔ r ∈ valid ∧ entityKey r = k := by
  simp [partitionV]

lemma mem_validRows {batch : List SrcRow} {r : SrcRow} :
    r ∈ validRows batch ↔ r ∈ batch ∧ extIdValid r.appointment_ext_id = true := by
  simp [validRows]

lemma mem_srcKeysV {valid : List SrcRow} {k : Option String × Option String} :
    k ∈ srcKeysV valid ↔ ∃ r ∈ valid, entityKey r = k := by
  simp [srcKeysV, List.mem_dedup]

lemma selectV_key {valid : List SrcRow} {k : Option String × Option String}
    {r : SrcRow} (h : pickLatest (partitionV valid k) = some r) :
    entityKey r = k :=
  (mem_partitionV.mp (pickLatest_spec h).1).2

lemma mem_selectLatestV {valid : List SrcRow} {r : SrcRow}
    (h : r ∈ selectLatestV valid) :
    ∃ k, k ∈ srcKeysV valid ∧ pickLatest (partitionV valid k) = some r := by
  simpa [selectLatestV, List.mem_filterMap] using h

lemma select_subset_valid {valid : List SrcRow} {r : SrcRow}
    (h : r ∈ selectLatestV valid) : r ∈ valid := by
  obtain ⟨k, _, hp⟩ := mem_selectLatestV h
  exact (mem_partitionV.mp (pickLatest_spec hp).1).1

lemma nodup_key_filterMap {K A : Type} (ks : List K) (f : K → Option A)
    (g : A → K) (hnd : ks.Nodup) (hkey : ∀ k a, f k = some a → g a = k) :
    ((ks.filterMap f).map g).Nodup := by
  induction ks with
  | nil => simp
  | cons k ks ih =>
    rw [List.nodup_cons] at hnd
    obtain ⟨hk, hnd2⟩ := hnd
    cases hfa : f k with
    | none => simpa [List.filterMap_cons, hfa] using ih hnd2
    | some a =>
      rw [List.filterMap_cons, hfa, List.map_cons, List.nodup_cons]
      refine ⟨?_, ih hnd2⟩
      intro hmem
      rw [List.mem_map] at hmem
      obtain ⟨b, hb, hgb⟩ := hmem
      rw [List.mem_filterMap] at hb
      obtain ⟨k', hk', hfk'⟩ := hb
      have h1 : g b = k' := hkey k' b hfk'
      have h2 : g a = k := hkey k a hfa
      have h3 : k' = k := by rw [← h1, hgb, h2]
      exact hk (h3 ▸ hk')

lemma countP_key_one {K A : Type} [DecidableEq K] (ks : List K)
    (f : K → Option A) (g : A → K) (hnd : ks.Nodup)
    (hkey : ∀ k a, f k = some a → g a = k) (k : K) (hk : k ∈ ks) (a₀ : A)
    (h₀ : f k = some a₀) :
    (ks.filterMap f).countP (fun a => decide (g a = k)) = 1 := by
  induction ks with
  | nil => cases hk
  | cons b ks ih =>
    rw [List.nodup_cons] at hnd
    obtain ⟨hb, hnd2⟩ := hnd
    rcases List.mem_cons.mp hk with rfl | hk2
    · rw [List.filterMap_cons, h₀, List.countP_cons]
      have hzero : (ks.filterMap f).countP (fun a => decide (g a = k)) = 0 := by
        rw [List.countP_eq_zero]
        intro a ha
        rw [List.mem_filterMap] at ha
        obtain ⟨k', hk', hfk'⟩ := ha
        have hga : g a = k' := hkey k' a hfk'
        simp only [hga, decide_eq_true_eq]
        intro heq
        exact hb (heq ▸ hk')
      simp [hzero, hkey k a₀ h₀]
    · have hbk : b ≠ k := fun h => hb (h ▸ hk2)
      cases hfb : f b with
      | none => simpa [List.filterMap_cons, hfb] using ih hnd2 hk2
      | some a =>
        have hga : g a = b := hkey b a hfb
        rw [List.filterMap_cons, hfb, List.countP_cons]
        have hfalse : (decide (g a = k)) = false := by simp [hga, hbk]
        rw [hfalse, ih hnd2 hk2]
        simp

lemma selectLatestV_keys_nodup (valid : List SrcRow) :
    ((selectLatestV valid).map entityKey).Nodup :=
  nodup_key_filterMap _ _ _ (List.nodup_dedup _) (fun _ _ h => selectV_key h)

/-! ### Concrete rows used by witnesses and counterexamples -/

/-- A representative source row; the concrete instances below vary the fields
relevant to each property. -/
def baseSrc : SrcRow :=
  { appointment_ext_id := some "E1"
    participant_integration_id := some "P1"
    appointment_type := some "Advising"
    scheduled := some "1"
    appointment_start_date := some "2024-01-01 10:00"
    appointment_end_date := some "2024-01-01 11:00"
    appointment_location := some "Office"
    appointment_description := some "first meeting"
    appointment_comment := some "ok"
    file_name := some "export_01.csv"
    file_created_on := 20240101 }

def c3r1 : SrcRow :=
  { baseSrc with file_name := some "f1.csv", file_created_on := 20240101 }

def c3r2 : SrcRow :=
  { baseSrc with file_name := some "f2.csv", file_created_on := 20240301 }

def c3r3 : SrcRow :=
  { baseSrc with file_name := some "f3.csv", file_created_on := 20240201 }

def c5r1 : SrcRow :=
  { baseSrc with file_name := some "f1.csv", file_created_on := 20240301 }

def c5r2 : SrcRow :=
  { baseSrc with file_name := some "f2.csv", file_created_on := 20240301 }

/-! ### C3 and C5: the latest-wins selector -/

/-- C3: for every staged batch and every valid entity key appearing in it, the
selector outputs exactly one record for the key, that record belongs to the
key's partition and carries the maximum freshness timestamp of the partition,
and this holds for every reordering `batch'` of the input `batch` (the
partition and its maximum are permutation invariant). -/
theorem C3_latest_wins (batch batch' : List SrcRow)
    (k : Option String × Option String) (hperm : batch'.Perm batch)
    (hk : k ∈ srcKeys batch) :
    (selectLatest batch').countP (fun r => decide (entityKey r = k)) = 1 ∧
    ∀ r ∈ selectLatest batch', entityKey r = k →
      r ∈ partitionRows batch k ∧
        ∀ x ∈ partitionRows batch k, x.file_created_on ≤ r.file_created_on := by
  have hV : (validRows batch').Perm (validRows batch) := hperm.filter _
  have hP : (partitionV (validRows batch') k).Perm
      (partitionV (validRows batch) k) := hV.filter _
  have hk2 : k ∈ srcKeysV (validRows batch) := hk
  have hk' : k ∈ srcKeysV (validRows batch') := by
    rw [mem_srcKeysV] at hk2 ⊢
    obtain ⟨r, hr, hkey⟩ := hk2
    exact ⟨r, hV.mem_iff.mpr hr, hkey⟩
  constructor
  · have hne : partitionV (validRows batch') k ≠ [] := by
      rw [mem_srcKeysV] at hk'
      obtain ⟨r, hr, hkey⟩ := hk'
      exact List.ne_nil_of_mem (mem_partitionV.mpr ⟨hr, hkey⟩)
    obtain ⟨r₀, h₀⟩ := pickLatest_isSome hne
    exact countP_key_one _ _ _ (List.nodup_dedup _)
      (fun _ _ h => selectV_key h) k hk' r₀ h₀
  · intro r hr hkey
    obtain ⟨k₁, hk₁, hp₁⟩ := mem_selectLatestV hr
    have hek : entityKey r = k₁ := selectV_key hp₁
    have hkk : k₁ = k := by rw [← hek, hkey]
    subst hkk
    obtain ⟨hmem, hmax⟩ := pickLatest_spec hp₁
    exact ⟨hP.mem_iff.mp hmem, fun x hx => hmax x (hP.mem_iff.mpr hx)⟩

/-- C3 witness: with records of key `(E1, P1)` at timestamps 2024-01-01,
2024-03-01 and 2024-02-01 presented in a different order, the selector picks
exactly one record for the key. -/
theorem C3_latest_wins_witness :
    (selectLatest [c3r3, c3r1, c3r2]).countP
      (fun r => decide (entityKey r =
        ((some "E1" : Option String), (some "P1" : Option String)))) = 1 :=
  (C3_latest_wins [c3r1, c3r2, c3r3] [c3r3, c3r1, c3r2] _
    (List.isPerm_iff.mp (by decide)) (by decide)).1

/-- C5: the window of both pipeline variants orders ties only by
`file_created_on DESC`, so for two staged records sharing the maximal
timestamp of their partition both are admissible as the row numbered 1: the
input batch does not determine the selected record, and the engine may return
either across repeated runs. -/
theorem C5_tie_nondeterminism :
    IsRowOne [c5r1, c5r2] (some "E1", some "P1") c5r1 ∧
    IsRowOne [c5r1, c5r2] (some "E1", some "P1") c5r2 ∧ c5r1 ≠ c5r2 := by
  refine ⟨⟨by decide, by decide⟩, ⟨by decide, by decide⟩, by decide⟩

/-! ### C8 and C10: the key-validity filter -/

lemma valid_ext {x : Option String} (h : extIdValid x = true) :
    ∃ e, x = some e ∧ e ≠ "None" := by
  cases x with
  | none => simp [extIdValid] at h
  | some e => exact ⟨e, rfl, by simpa [extIdValid] using h⟩

lemma validRows_filter_ne (batch : List SrcRow) (r : SrcRow)
    (h : extIdValid r.appointment_ext_id = false) :
    validRows (batch.filter (fun x => !(decide (x = r)))) = validRows batch := by
  unfold validRows
  rw [List.filter_filter]
  apply List.filter_congr
  intro a _
  by_cases hv : extIdValid a.appointment_ext_id = true
  · have har : a ≠ r := fun heq => by rw [heq, h] at hv; cases hv
    simp [hv, har]
  · simp [Bool.eq_false_iff.mpr hv]

/-- C8: a staged record whose external id is the sentinel string `'None'` is
dropped by the filter, never reaches the selector's output, never reaches the
staging table (every staged row carries a non-sentinel, non-null external id),
and removing the record from the batch changes neither the staging table nor
the result of the merge against any target state: its exclusion is a silent
no-op, not an error. -/
theorem C8_sentinel_excluded (batch : List SrcRow) (r : SrcRow)
    (h : r.appointment_ext_id = some "None") :
    r ∉ validRows batch ∧ r ∉ selectLatest batch ∧
    (∀ s ∈ stageBatch batch, ∃ e, s.appointment_ext_id = some e ∧ e ≠ "None") ∧
    stageBatch (batch.filter (fun x => !(decide (x = r)))) = stageBatch batch ∧
    ∀ target, mergeRun target (stageBatch (batch.filter (fun x => !(decide (x = r))))) =
      mergeRun target (stageBatch batch) := by
  have hval : extIdValid r.appointment_ext_id = false := by
    rw [h]
    simp [extIdValid]
  have h1 : r ∉ validRows batch := by
    intro hmem
    rw [mem_validRows] at hmem
    rw [hval] at hmem
    cases hmem.2
  have h2 : r ∉ selectLatest batch := fun hmem => h1 (select_subset_valid hmem)
  have h4 : stageBatch (batch.filter (fun x => !(decide (x = r)))) =
      stageBatch batch := by
    unfold stageBatch selectLatest
    rw [validRows_filter_ne batch r hval]
  refine ⟨h1, h2, ?_, h4, fun target => by rw [h4]⟩
  intro s hs
  obtain ⟨r', hr', hs'⟩ := List.mem_map.mp hs
  obtain ⟨e, he, hne⟩ :=
    valid_ext (mem_validRows.mp (select_subset_valid hr')).2
  refine ⟨e, ?_, hne⟩
  have : (replaceNoneRow (toSelRow r')).appointment_ext_id =
      replaceNone r'.appointment_ext_id := rfl
  rw [← hs', this, he, replaceNone]
  simp [hne]

def c8bad : SrcRow :=
  { baseSrc with
    appointment_ext_id := some "None"
    file_name := some "bad.csv" }

/-- C8 witness: in a batch holding a sentinel-keyed record and a well-keyed
one, the sentinel record is excluded and its removal leaves staging
unchanged. -/
theorem C8_sentinel_excluded_witness :
    c8bad ∉ validRows [c8bad, baseSrc] ∧
    stageBatch ([c8bad, baseSrc].filter (fun x => !(decide (x = c8bad)))) =
      stageBatch [c8bad, baseSrc] := by
  have h := C8_sentinel_excluded [c8bad, baseSrc] c8bad rfl
  exact ⟨h.1, h.2.2.2.1⟩

def c10r : SrcRow :=
  { baseSrc with participant_integration_id := some "None" }

/-- C10: the validity predicate inspects only the external id component: a
record whose participant component is `'None'` (or `NULL`) is not excluded,
passes through selection, and its concatenated key is
`<appointment_ext_id>_None` (respectively `<appointment_ext_id>_`, the null
component contributing the empty string). -/
theorem C10_participant_not_checked (batch : List SrcRow) (r : SrcRow)
    (hval : extIdValid r.appointment_ext_id = true) :
    (∀ x : SrcRow, x ∈ validRows batch ↔
        (x ∈ batch ∧ extIdValid x.appointment_ext_id = true)) ∧
    (r ∈ batch → r ∈ validRows batch) ∧
    (r.participant_integration_id = some "None" →
      (toSelRow r).INTEGRATION_ID =
        some (sqlConcatOpt r.appointment_ext_id ++ "_None")) ∧
    (r.participant_integration_id = none →
      (toSelRow r).INTEGRATION_ID =
        some (sqlConcatOpt r.appointment_ext_id ++ "_")) ∧
    selectLatest [r] = [r] := by
  refine ⟨fun x => mem_validRows, fun hmem => mem_validRows.mpr ⟨hmem, hval⟩,
    ?_, ?_, ?_⟩
  · intro hp
    show some (sqlConcatOpt r.appointment_ext_id ++ "_" ++
      sqlConcatOpt r.participant_integration_id) = _
    rw [hp, String.append_assoc]
    rfl
  · intro hp
    show some (sqlConcatOpt r.appointment_ext_id ++ "_" ++
      sqlConcatOpt r.participant_integration_id) = _
    rw [hp, String.append_assoc]
    rfl
  · have hv1 : validRows [r] = [r] := by simp [validRows, hval]
    unfold selectLatest
    rw [hv1]
    unfold selectLatestV srcKeysV
    simp only [List.map_cons, List.map_nil, List.dedup_nil]
    rw [List.dedup_cons_of_not_mem (by simp)]
    simp only [List.filterMap_cons, List.filterMap_nil]
    have hpart : partitionV [r] (entityKey r) = [r] := by simp [partitionV]
    rw [hpart]
    rfl

/-- C10 witness: a record with participant component `'None'` and valid
external id `E1` gets the concatenated key `E1_None` and survives
selection. -/
theorem C10_participant_not_checked_witness :
    (toSelRow c10r).INTEGRATION_ID =
        some (sqlConcatOpt c10r.appointment_ext_id ++ "_None") ∧
      selectLatest [c10r] = [c10r] := by
  have h := C10_participant_not_checked [c10r] c10r rfl
  exact ⟨h.2.2.1 rfl, h.2.2.2.2⟩

/-! ### C4: the content fingerprint -/

def c4a : SrcRow :=
  { baseSrc with
    appointment_ext_id := some "AB"
    participant_integration_id := some "C" }

def c4b : SrcRow :=
  { baseSrc with
    appointment_ext_id := some "A"
    participant_integration_id := some "BC" }

/-- C4 counterexample: the six fingerprint fields are concatenated with no
separator before hashing, so the records `(ext 'AB', participant 'C')` and
`(ext 'A', participant 'BC')` — which differ in every key component — produce
the identical digest input, hence the identical fingerprint. -/
theorem C4_counterexample :
    Hash_DW_input c4a = Hash_DW_input c4b ∧
      c4a.appointment_ext_id ≠ c4b.appointment_ext_id := by
  exact ⟨by decide, by decide⟩

/-- C4 amended: the fingerprint is a function of the six fingerprint-relevant
fields alone — two records agreeing on those fields get the same fingerprint,
whatever their free-text, provenance or timestamp fields are.  The converse
implication of the claim fails (see the counterexample): fingerprint equality
only coincides with equality of the separator-free concatenation. -/
theorem C4_amended (r r' : SrcRow) (h : hashFields r = hashFields r') :
    Hash_DW_input r = Hash_DW_input r' := by
  unfold hashFields at h
  simp only [Prod.mk.injEq] at h
  obtain ⟨h1, h2, h3, h4, h5, h6⟩ := h
  unfold Hash_DW_input
  rw [h1, h2, h3, h4, h5, h6]

def c4w1 : SrcRow :=
  { baseSrc with
    appointment_comment := some "note one"
    file_name := some "w1.csv" }

def c4w2 : SrcRow :=
  { baseSrc with
    appointment_comment := some "different note"
    file_name := some "w2.csv"
    file_created_on := 20240401 }

/-- C4 amended witness: two records with equal fingerprint fields but
different comment, file name and freshness timestamp share the
fingerprint. -/
theorem C4_amended_witness :
    hashFields c4w1 = hashFields c4w2 ∧ c4w1 ≠ c4w2 ∧
      Hash_DW_input c4w1 = Hash_DW_input c4w2 :=
  ⟨by decide, by decide, C4_amended c4w1 c4w2 (by decide)⟩

/-! ### Facts about the MERGE -/

lemma sqlEqOpt_true {a b : Option String} (h : sqlEqOpt a b = true) :
    ∃ x, a = some x ∧ b = some x := by
  cases a with
  | none => simp [sqlEqOpt] at h
  | some x =>
    cases b with
    | none => simp [sqlEqOpt] at h
    | some y =>
      have : x = y := by simpa [sqlEqOpt] using h
      exact ⟨x, rfl, by rw [this]⟩

lemma mergeMatch_key {t s : SelRow} (h : mergeMatch t s = true) :
    keyS s = keyS t := by
  rw [mergeMatch, Bool.and_eq_true] at h
  obtain ⟨x, hx1, hx2⟩ := sqlEqOpt_true h.1
  obtain ⟨y, hy1, hy2⟩ := sqlEqOpt_true h.2
  unfold keyS
  rw [hx1, hx2, hy1, hy2]

lemma mergeMatch_of_keys {t s : SelRow} (e q : String)
    (ht : keyS t = (some e, some q)) (hs : keyS s = (some e, some q)) :
    mergeMatch t s = true := by
  obtain ⟨ht1, ht2⟩ : t.appointment_ext_id = some e ∧
      t.participant_integration_id = some q := by
    simpa [keyS, Prod.ext_iff] using ht
  obtain ⟨hs1, hs2⟩ : s.appointment_ext_id = some e ∧
      s.participant_integration_id = some q := by
    simpa [keyS, Prod.ext_iff] using hs
  simp [mergeMatch, sqlEqOpt, ht1, ht2, hs1, hs2]

lemma mergeMatch_eq_keyDec (t x : SelRow) (e q : String)
    (ht : keyS t = (some e, some q)) :
    mergeMatch t x = decide (keyS x = (some e, some q)) := by
  obtain ⟨ht1, ht2⟩ : t.appointment_ext_id = some e ∧
      t.participant_integration_id = some q := by
    simpa [keyS, Prod.ext_iff] using ht
  unfold mergeMatch keyS
  rw [ht1, ht2]
  cases hx1 : x.appointment_ext_id with
  | none => simp [sqlEqOpt]
  | some y =>
    cases hx2 : x.participant_integration_id with
    | none => simp [sqlEqOpt]
    | some z =>
      by_cases hey : e = y <;> by_cases hqz : q = z <;>
        simp [sqlEqOpt, hey, hqz, eq_comm]

lemma applyUpdate_eq (t s : SelRow) : applyUpdate t s = s := rfl

lemma keyS_mergeRowAction (staged : List SelRow) (t : SelRow) :
    keyS (mergeRowAction staged t) = keyS t := by
  cases hf : staged.find? (fun s => mergeMatch t s) with
  | none => simp [mergeRowAction, hf]
  | some s =>
    have hm := List.find?_some hf
    by_cases hts : s.File_Created_On > t.File_Created_On
    · have : keyS (applyUpdate t s) = keyS s := rfl
      simp [mergeRowAction, hf, hts, this, mergeMatch_key hm]
    · simp [mergeRowAction, hf, hts]

lemma find?_of_filter_eq_singleton {α : Type} {l : List α} {p : α → Bool}
    {x : α} (h : l.filter p = [x]) : l.find? p = some x := by
  induction l with
  | nil => simp at h
  | cons a l ih =>
    by_cases pa : p a = true
    · rw [List.filter_cons_of_pos pa] at h
      injection h with h1 h2
      subst h1
      exact List.find?_cons_of_pos _ pa
    · rw [List.filter_cons_of_neg (by simpa using pa)] at h
      rw [List.find?_cons_of_neg _ pa]
      exact ih h

lemma find?_of_filter_eq_nil {α : Type} {l : List α} {p : α → Bool}
    (h : l.filter p = []) : l.find? p = none := by
  rw [List.find?_eq_none]
  intro x hx hpx
  rw [List.filter_eq_nil_iff] at h
  exact h x hx hpx

lemma rowsWithKey_mem {k : Option String × Option String} {l : List SelRow}
    {t : SelRow} (h : rowsWithKey k l = [t]) : t ∈ l ∧ keyS t = k := by
  have hmem : t ∈ rowsWithKey k l := by
    rw [h]
    exact List.mem_singleton.mpr rfl
  have := List.mem_filter.mp hmem
  exact ⟨this.1, by simpa using this.2⟩

lemma rowsWithKey_mergeRun (target staged : List SelRow)
    (k : Option String × Option String) :
    rowsWithKey k (mergeRun target staged) =
      (rowsWithKey k target).map (mergeRowAction staged) ++
        (rowsWithKey k staged).filter
          (fun s => !(target.any (fun t => mergeMatch t s))) := by
  unfold mergeRun rowsWithKey mergeInserts
  rw [List.filter_append]
  congr 1
  · rw [List.filter_map]
    exact congrArg _ (List.filter_congr
      (fun t _ => by simp [Function.comp, keyS_mergeRowAction]))
  · rw [List.filter_filter, List.filter_filter]
    exact List.filter_congr (fun a _ => Bool.and_comm _ _)

lemma stagedFilter_eq_rowsWithKey (staged : List SelRow) (t : SelRow)
    (e q : String) (ht : keyS t = (some e, some q)) :
    staged.filter (fun s => mergeMatch t s) =
      rowsWithKey (some e, some q) staged :=
  List.filter_congr (fun s _ => mergeMatch_eq_keyDec t s e q ht)

/-! ### C1 and C7: the three-way merge -/

/-- C1 amended: for every entity key `(some e, some q)` with non-null
components, whenever the staging batch is one SQL Server's MERGE accepts (no
target row matched by two distinct staged rows, hypothesis `hdm`; a violation
aborts the whole statement), the run performs exactly one of the three
actions on that key: the staged row is inserted when the key is absent from
the target; the target row is fully overwritten — every mapped field,
fingerprint and freshness timestamp, without consulting the fingerprint —
when the staged timestamp is strictly newer; and the target row is kept
unchanged when the staged timestamp is equal or older, or when the key is
absent from staging.  The claim as frozen is wider: for a key whose
participant component is `NULL` (which the load step produces from the
sentinel string `'None'`) the MERGE condition never matches and the code
inserts a duplicate row even though the key is present — see the
counterexample. -/
theorem C1_amended_three_way (target staged : List SelRow) (e q : String)
    (hdm : ∀ t ∈ target, ∀ s1 ∈ staged, ∀ s2 ∈ staged,
      mergeMatch t s1 = true → mergeMatch t s2 = true → s1 = s2) :
    (∀ t s : SelRow, applyUpdate t s = s) ∧
    (rowsWithKey (some e, some q) target = [] →
      ∀ s, rowsWithKey (some e, some q) staged = [s] →
        rowsWithKey (some e, some q) (mergeRun target staged) = [s]) ∧
    (∀ t s, rowsWithKey (some e, some q) target = [t] →
      rowsWithKey (some e, some q) staged = [s] →
      s.File_Created_On > t.File_Created_On →
        rowsWithKey (some e, some q) (mergeRun target staged) =
          [applyUpdate t s]) ∧
    (∀ t s, rowsWithKey (some e, some q) target = [t] →
      rowsWithKey (some e, some q) staged = [s] →
      ¬s.File_Created_On > t.File_Created_On →
        rowsWithKey (some e, some q) (mergeRun target staged) = [t]) ∧
    (rowsWithKey (some e, some q) staged = [] →
      rowsWithKey (some e, some q) (mergeRun target staged) =
        rowsWithKey (some e, some q) target) := by
  refine ⟨fun t s => applyUpdate_eq t s, ?_, ?_, ?_, ?_⟩
  · intro htgt s hst
    obtain ⟨hsmem, hsk⟩ := rowsWithKey_mem hst
    have hnone : ¬∃ x, x ∈ target ∧ mergeMatch x s = true := by
      rintro ⟨t, ht, hm⟩
      have hk : keyS s = keyS t := mergeMatch_key hm
      have htk : keyS t = (some e, some q) := by rw [← hk]; exact hsk
      have : t ∈ rowsWithKey (some e, some q) target :=
        List.mem_filter.mpr ⟨ht, by simp [htk]⟩
      rw [htgt] at this
      exact absurd this (List.not_mem_nil t)
    have hany : target.any (fun x => mergeMatch x s) = false := by
      cases hb : target.any (fun x => mergeMatch x s)
      · rfl
      · exact absurd (by simpa using List.any_eq_true.mp hb) hnone
    rw [rowsWithKey_mergeRun, htgt, List.map_nil, List.nil_append, hst]
    simp [hany]
  · intro t s ht hs hgt
    obtain ⟨htmem, htk⟩ := rowsWithKey_mem ht
    obtain ⟨hsmem, hsk⟩ := rowsWithKey_mem hs
    have hfind : staged.find? (fun x => mergeMatch t x) = some s :=
      find?_of_filter_eq_singleton
        (by rw [stagedFilter_eq_rowsWithKey staged t e q htk]; exact hs)
    have hmatch : mergeMatch t s = true := mergeMatch_of_keys e q htk hsk
    have hany : target.any (fun x => mergeMatch x s) = true :=
      List.any_eq_true.mpr ⟨t, htmem, hmatch⟩
    rw [rowsWithKey_mergeRun, ht, hs]
    simp [mergeRowAction, hfind, hgt, hany]
  · intro t s ht hs hngt
    obtain ⟨htmem, htk⟩ := rowsWithKey_mem ht
    obtain ⟨hsmem, hsk⟩ := rowsWithKey_mem hs
    have hfind : staged.find? (fun x => mergeMatch t x) = some s :=
      find?_of_filter_eq_singleton
        (by rw [stagedFilter_eq_rowsWithKey staged t e q htk]; exact hs)
    have hmatch : mergeMatch t s = true := mergeMatch_of_keys e q htk hsk
    have hany : target.any (fun x => mergeMatch x s) = true :=
      List.any_eq_true.mpr ⟨t, htmem, hmatch⟩
    rw [rowsWithKey_mergeRun, ht, hs]
    simp [mergeRowAction, hfind, hngt, hany]
  · intro hst
    rw [rowsWithKey_mergeRun, hst, List.filter_nil, List.append_nil]
    have hid : ∀ t ∈ rowsWithKey (some e, some q) target,
        mergeRowAction staged t = t := by
      intro t htmem
      have htk : keyS t = (some e, some q) := by
        have := List.mem_filter.mp htmem
        simpa using this.2
      have hfind : staged.find? (fun x => mergeMatch t x) = none :=
        find?_of_filter_eq_nil
          (by rw [stagedFilter_eq_rowsWithKey staged t e q htk]; exact hst)
      simp [mergeRowAction, hfind]
    rw [List.map_congr_left hid]
    simp

def c1new : SrcRow :=
  { baseSrc with
    participant_integration_id := some "None"
    file_name := some "new.csv"
    file_created_on := 20240305 }

def c1old : SrcRow :=
  { baseSrc with
    participant_integration_id := some "None"
    file_name := some "old.csv"
    file_created_on := 20240101 }

/-- C1 counterexample: a target obtained from a previous run holds a row
whose participant key component is `NULL` (the load converted the sentinel
`'None'`).  A later staged record for the same entity key with a strictly
older freshness timestamp must, per the claim, leave the target completely
unchanged — but the `MERGE ... ON` equality never matches `NULL`, so the code
inserts a second row for the key instead. -/
theorem C1_counterexample :
    (∃ t ∈ mergeRun [] (stageBatch [c1new]), ∃ s ∈ stageBatch [c1old],
        keyS t = keyS s ∧ s.File_Created_On < t.File_Created_On) ∧
    mergeRun (mergeRun [] (stageBatch [c1new])) (stageBatch [c1old]) ≠
      mergeRun [] (stageBatch [c1new]) := by
  exact ⟨by decide, by decide⟩

def c1t : SelRow := replaceNoneRow (toSelRow baseSrc)

def c1srcNewer : SrcRow :=
  { baseSrc with
    file_name := some "f2.csv"
    file_created_on := 20240301 }

def c1s : SelRow := replaceNoneRow (toSelRow c1srcNewer)

/-- C1 amended witness: on a singleton target and a strictly newer staged row
with the same non-null key, the run takes the update action. -/
theorem C1_amended_witness :
    rowsWithKey (some "E1", some "P1") (mergeRun [c1t] [c1s]) =
      [applyUpdate c1t c1s] := by
  have h := C1_amended_three_way [c1t] [c1s] "E1" "P1" (by decide)
  exact h.2.2.1 c1t c1s (by decide) (by decide) (by decide)

/-- C7: the merge never deletes: every entity key present in the target
before the run is still present after it (the MERGE has no delete branch),
and every target row whose key matches no staged record is kept in the
result byte for byte. -/
theorem C7_no_delete (target staged : List SelRow) :
    (∀ t ∈ target, ∃ t', t' ∈ mergeRun target staged ∧ keyS t' = keyS t) ∧
    (∀ t ∈ target, (∀ s ∈ staged, keyS s ≠ keyS t) →
      t ∈ mergeRun target staged) := by
  constructor
  · intro t ht
    exact ⟨mergeRowAction staged t,
      List.mem_append_left _ (List.mem_map_of_mem _ ht),
      keyS_mergeRowAction _ _⟩
  · intro t ht hks
    have hf : staged.find? (fun s => mergeMatch t s) = none := by
      rw [List.find?_eq_none]
      intro s hs hm
      exact hks s hs (mergeMatch_key hm)
    have hact : mergeRowAction staged t = t := by simp [mergeRowAction, hf]
    have hmem : mergeRowAction staged t ∈ target.map (mergeRowAction staged) :=
      List.mem_map_of_mem _ ht
    rw [hact] at hmem
    exact List.mem_append_left _ hmem

def c7t : SelRow := replaceNoneRow (toSelRow baseSrc)

def c7src : SrcRow := { baseSrc with appointment_ext_id := some "E9" }

def c7s : SelRow := replaceNoneRow (toSelRow c7src)

/-- C7 witness: a target row whose key appears nowhere in staging survives
the run unchanged. -/
theorem C7_no_delete_witness : c7t ∈ mergeRun [c7t] [c7s] := by
  have h := C7_no_delete [c7t] [c7s]
  exact h.2 c7t (by simp) (by decide)

/-! ### C2: idempotence of the reconciliation -/

lemma replaceNone_eq_self {x : Option String} (h : x ≠ some "None") :
    replaceNone x = x := by
  simp [replaceNone, h]

lemma replaceNone_ne_none {x : Option String} (h : replaceNone x ≠ none) :
    replaceNone x = x := by
  by_cases hx : x = some "None"
  · rw [hx] at h ⊢
    simp [replaceNone] at h
  · exact replaceNone_eq_self hx

lemma stage_ext {batch : List SrcRow} {s : SelRow} (hs : s ∈ stageBatch batch) :
    ∃ e, s.appointment_ext_id = some e ∧ e ≠ "None" := by
  obtain ⟨r', hr', hs'⟩ := List.mem_map.mp hs
  obtain ⟨e, he, hne⟩ :=
    valid_ext (mem_validRows.mp (select_subset_valid hr')).2
  refine ⟨e, ?_, hne⟩
  rw [← hs']
  show replaceNone (toSelRow r').appointment_ext_id = some e
  rw [show (toSelRow r').appointment_ext_id = r'.appointment_ext_id from rfl, he]
  exact replaceNone_eq_self (by simp [hne])

lemma stage_key_some {batch : List SrcRow} {s : SelRow}
    (hpid : ∀ x ∈ stageBatch batch, x.participant_integration_id ≠ none)
    (hs : s ∈ stageBatch batch) :
    ∃ e q, s.appointment_ext_id = some e ∧
      s.participant_integration_id = some q := by
  obtain ⟨e, he, _⟩ := stage_ext hs
  cases hq : s.participant_integration_id with
  | none => exact absurd hq (hpid s hs)
  | some q => exact ⟨e, q, he, rfl⟩

lemma stage_keys_nodup {batch : List SrcRow}
    (hpid : ∀ x ∈ stageBatch batch, x.participant_integration_id ≠ none) :
    ((stageBatch batch).map keyS).Nodup := by
  unfold stageBatch
  rw [List.map_map]
  have hcong : ∀ r ∈ selectLatest batch,
      (keyS ∘ fun x => replaceNoneRow (toSelRow x)) r = entityKey r := by
    intro r hr
    have hmem : replaceNoneRow (toSelRow r) ∈ stageBatch batch := by
      unfold stageBatch
      exact List.mem_map_of_mem _ hr
    have hp : replaceNone r.participant_integration_id ≠ none := hpid _ hmem
    have hpe : replaceNone r.participant_integration_id =
        r.participant_integration_id := replaceNone_ne_none hp
    obtain ⟨e, he, hne⟩ :=
      valid_ext (mem_validRows.mp (select_subset_valid hr)).2
    have hee : replaceNone r.appointment_ext_id = r.appointment_ext_id := by
      rw [he]
      exact replaceNone_eq_self (by simp [hne])
    show (replaceNone r.appointment_ext_id,
      replaceNone r.participant_integration_id) = entityKey r
    rw [hpe, hee]
    rfl
  rw [List.map_congr_left hcong]
  exact selectLatestV_keys_nodup _

lemma stage_key_inj {batch : List SrcRow}
    (hpid : ∀ x ∈ stageBatch batch, x.participant_integration_id ≠ none)
    {s1 s2 : SelRow} (h1 : s1 ∈ stageBatch batch) (h2 : s2 ∈ stageBatch batch)
    (hk : keyS s1 = keyS s2) : s1 = s2 :=
  List.inj_on_of_nodup_map (stage_keys_nodup hpid) h1 h2 hk

/-- C2 amended: reconciliation is idempotent for every staged batch in which
every staged record reaches the staging table with a non-null participant key
component (the load converts the sentinel string `'None'` to `NULL`): for
every initial target state, the second run with the identical batch inserts
nothing and updates nothing.  The claim as frozen quantifies over all staged
batches — for a batch containing a record with a null participant component
the `MERGE ... ON` equality never matches the row inserted by the first run
and the record is re-inserted by every run; see the counterexample. -/
theorem C2_amended_idempotent (target : List SelRow) (batch : List SrcRow)
    (hpid : ∀ s ∈ stageBatch batch, s.participant_integration_id ≠ none) :
    mergeRun (mergeRun target (stageBatch batch)) (stageBatch batch) =
      mergeRun target (stageBatch batch) := by
  have hA : ∀ s ∈ stageBatch batch, ∃ t', t' ∈ mergeRun target (stageBatch batch) ∧
      mergeMatch t' s = true := by
    intro s hs
    obtain ⟨e, q, he, hq⟩ := stage_key_some hpid hs
    have hsk : keyS s = (some e, some q) := by simp [keyS, he, hq]
    by_cases hany : target.any (fun t => mergeMatch t s) = true
    · obtain ⟨t, ht, hm⟩ := List.any_eq_true.mp hany
      refine ⟨mergeRowAction (stageBatch batch) t,
        List.mem_append_left _ (List.mem_map_of_mem _ ht), ?_⟩
      apply mergeMatch_of_keys e q
      · rw [keyS_mergeRowAction, ← mergeMatch_key hm]
        exact hsk
      · exact hsk
    · refine ⟨s, List.mem_append_right _ ?_, mergeMatch_of_keys e q hsk hsk⟩
      refine List.mem_filter.mpr ⟨hs, ?_⟩
      have hfalse : target.any (fun t => mergeMatch t s) = false :=
        Bool.eq_false_iff.mpr hany
      simp [hfalse]
  have hB : ∀ t' ∈ mergeRun target (stageBatch batch),
      mergeRowAction (stageBatch batch) t' = t' := by
    intro t' ht'
    cases hf : (stageBatch batch).find? (fun s => mergeMatch t' s) with
    | none => simp [mergeRowAction, hf]
    | some s =>
      have hsmem : s ∈ stageBatch batch := List.mem_of_find?_eq_some hf
      have hm : mergeMatch t' s = true := List.find?_some hf
      have hnot : ¬s.File_Created_On > t'.File_Created_On := by
        rcases List.mem_append.mp ht' with hmap | hins
        · obtain ⟨t, ht, heq⟩ := List.mem_map.mp hmap
          cases hf0 : (stageBatch batch).find? (fun x => mergeMatch t x) with
          | none =>
            have hact : mergeRowAction (stageBatch batch) t = t := by
              simp [mergeRowAction, hf0]
            rw [hact] at heq
            rw [← heq] at hf
            rw [hf0] at hf
            exact Option.noConfusion hf
          | some s0 =>
            have hs0mem : s0 ∈ stageBatch batch := List.mem_of_find?_eq_some hf0
            by_cases hts : s0.File_Created_On > t.File_Created_On
            · have hact : mergeRowAction (stageBatch batch) t = s0 := by
                simp [mergeRowAction, hf0, hts, applyUpdate_eq]
              rw [hact] at heq
              subst heq
              have hks : keyS s = keyS s0 := mergeMatch_key hm
              have hss : s = s0 := stage_key_inj hpid hsmem hs0mem hks
              rw [hss]
              exact Nat.lt_irrefl _
            · have hact : mergeRowAction (stageBatch batch) t = t := by
                simp [mergeRowAction, hf0, hts]
              rw [hact] at heq
              subst heq
              rw [hf0] at hf
              injection hf with hf
              rw [hf] at hts
              exact hts
        · have htS : t' ∈ stageBatch batch := (List.mem_filter.mp hins).1
          have hks : keyS s = keyS t' := mergeMatch_key hm
          have hst : s = t' := stage_key_inj hpid hsmem htS hks
          rw [hst]
          exact Nat.lt_irrefl _
      simp [mergeRowAction, hf, hnot]
  have hins2 : mergeInserts (mergeRun target (stageBatch batch))
      (stageBatch batch) = [] := by
    rw [mergeInserts, List.filter_eq_nil_iff]
    intro s hs
    obtain ⟨t', ht', hm⟩ := hA s hs
    have hany : (mergeRun target (stageBatch batch)).any
        (fun t => mergeMatch t s) = true := List.any_eq_true.mpr ⟨t', ht', hm⟩
    simp [hany]
  show (mergeRun target (stageBatch batch)).map
      (mergeRowAction (stageBatch batch)) ++
      mergeInserts (mergeRun target (stageBatch batch)) (stageBatch batch) =
    mergeRun target (stageBatch batch)
  rw [hins2, List.append_nil, List.map_congr_left hB]
  simp

def c2src : SrcRow := { baseSrc with participant_integration_id := some "None" }

/-- C2 counterexample: one staged record whose participant key component is
the sentinel `'None'` (stored as `NULL`): the first run against an empty
target inserts it, and the second run with the identical batch inserts it
again instead of leaving the target unchanged. -/
theorem C2_counterexample :
    mergeRun (mergeRun [] (stageBatch [c2src])) (stageBatch [c2src]) ≠
      mergeRun [] (stageBatch [c2src]) := by
  decide

def c2w2 : SrcRow :=
  { baseSrc with
    appointment_ext_id := some "E2"
    participant_integration_id := some "P2"
    file_created_on := 20240202 }

/-- C2 amended witness: a two-record batch with non-null keys is reconciled
idempotently against the empty target. -/
theorem C2_amended_witness :
    mergeRun (mergeRun [] (stageBatch [baseSrc, c2w2]))
        (stageBatch [baseSrc, c2w2]) =
      mergeRun [] (stageBatch [baseSrc, c2w2]) :=
  C2_amended_idempotent [] [baseSrc, c2w2] (by decide)

/-! ### C6: staging materialization -/

def c6old : SelRow := replaceNoneRow (toSelRow baseSrc)

def c6srcNew : SrcRow :=
  { baseSrc with
    appointment_ext_id := some "E2"
    file_created_on := 20240301 }

def c6new : SelRow := replaceNoneRow (toSelRow c6srcNew)

/-- C6 counterexample: `Improoved_Update_FinalSF.py` writes the staging table
with `if_exists='append'`: with a non-empty prior staging content the table
afterwards is not the new batch alone — the prior row persists. -/
theorem C6_counterexample :
    toSqlAppend [c6old] [c6new] ≠ [c6new] ∧
      c6old ∈ toSqlAppend [c6old] [c6new] := by
  exact ⟨by decide, by decide⟩

/-- C6 amended: in `UpdateFinalSF.py` (`if_exists='replace'`) the staging
write discards all prior contents and the table holds exactly the new batch;
in `Improoved_Update_FinalSF.py` (`if_exists='append'`) the new batch is
appended and every prior staging row persists alongside it. -/
theorem C6_amended (old new : List SelRow) :
    toSqlReplace old new = new ∧
      ∀ r : SelRow, r ∈ toSqlAppend old new ↔ (r ∈ old ∨ r ∈ new) :=
  ⟨rfl, fun r => List.mem_append⟩

/-! ### C9: oversized text fields -/

/-- C9 counterexample: a 2001-character description is clipped to exactly
2000 characters and the row survives, but no warning is recorded: the SQL
`LEFT(..., 2000)` in the SELECT has already truncated the value, so the
`truncate_column` branch holding the `logging.warning` call never fires. -/
theorem C9_truncation_counterexample :
    (improovedTextPipeline (List.replicate 2001 'a')).1.length = 2000 ∧
    (improovedTextPipeline (List.replicate 2001 'a')).2 = false ∧
    (List.replicate 2001 'a').length > 2000 := by
  have h1 : improovedTextPipeline (List.replicate 2001 'a') =
      (List.replicate 2000 'a', false) := by
    unfold improovedTextPipeline sqlLeft truncate_column
    rw [List.take_replicate]
    norm_num [List.length_replicate]
  rw [h1]
  refine ⟨List.length_replicate _ _, rfl, ?_⟩
  rw [List.length_replicate]
  omega

/-- C9 amended: every staged record with a business text field longer than
2000 characters is still processed: the field is clipped to exactly 2000
characters, the row is not dropped (the per-cell pass is a map, preserving
the row count) and the run does not fail; however no warning is recorded for
these fields, because the Python `truncate_column` (which logs the warning)
runs after the SQL-side `LEFT(..., 2000)` and never sees an oversized
value. -/
theorem C9_truncation_amended (raw : List Char) (h : raw.length > 2000) :
    (improovedTextPipeline raw).1.length = 2000 ∧
    (improovedTextPipeline raw).2 = false ∧
    ∀ rows : List (List Char),
      (rows.map (fun v => (truncate_column v 2000).1)).length = rows.length := by
  have hlen : (sqlLeft raw 2000).length = 2000 := by
    simp only [sqlLeft, List.length_take]
    omega
  have hnot : ¬(sqlLeft raw 2000).length > 2000 := by omega
  refine ⟨?_, ?_, fun rows => List.length_map _ _⟩
  · simp [improovedTextPipeline, truncate_column, hnot, hlen]
  · simp [improovedTextPipeline, truncate_column, hnot]

/-- C9 amended witness: the 2001-character value again, through the amended
theorem. -/
theorem C9_truncation_witness :
    (improovedTextPipeline (List.replicate 2001 'a')).1.length = 2000 ∧
      (improovedTextPipeline (List.replicate 2001 'a')).2 = false := by
  have h := C9_truncation_amended (List.replicate 2001 'a')
    (by rw [List.length_replicate]; omega)
  exact ⟨h.1, h.2.1⟩

end OpairDE
